import Mathlib

/-!
Verification of the assistance-dispatch core of the destechchallenge repository.

The embedding follows src/assistance/models.py, src/assistance/services.py and
src/assistance/tasks.py.  The Django ORM is modelled as an explicit database
state (lists of rows); a transaction that raises rolls back, which the
embedding renders by returning the caller database unchanged next to the
error.  Float coordinates are modelled as rationals; the transcendental
haversine computation itself is embedded separately over the real numbers,
and the assignment engine is parametrised by the distance function it feeds
to the Python builtin min.
-/

namespace Assistance

/-- Lifecycle status of an assistance request, from
AssistanceRequest.STATUS_CHOICES in models.py. -/
inductive Status where
  | PENDING
  | DISPATCHED
  | COMPLETED
  | CANCELLED
deriving DecidableEq

/-- A provider row (models.Provider).  The inert columns name, phone and
created_at carry no logic in the core and are omitted; the float coordinates
are modelled as rationals. -/
structure Provider where
  id : Nat
  lat : ℚ
  lon : ℚ
  is_available : Bool
deriving DecidableEq

/-- An assistance-request row (models.AssistanceRequest).  The inert columns
customer_name, policy_number, issue_desc and created_at are omitted. -/
structure AssistanceRequest where
  id : Nat
  lat : ℚ
  lon : ℚ
  status : Status
deriving DecidableEq

/-- A service-assignment row (models.ServiceAssignment): links one request to
one provider; the dispatched_at timestamp is omitted as inert. -/
structure ServiceAssignment where
  request_id : Nat
  provider_id : Nat
deriving DecidableEq

/-- The whole mutable state: the three tables plus the queue of notification
jobs enqueued after commit (transaction.on_commit followed by
notify_insurance_company_task.delay stores the request id). -/
structure DB where
  requests : List AssistanceRequest
  providers : List Provider
  assignments : List ServiceAssignment
  notification_queue : List Nat
deriving DecidableEq

/-- The error taxonomy of spec section 7, naming the raise sites of
services.py: DoesNotExist from objects.get is NotFound; the ValueError raise
sites for a wrong status are InvalidState; the empty-candidate ValueError is
NoProvidersAvailable; the post-lock re-check Exception is ProviderBusy; the
missing-assignment ValueError in complete_request is NoAssignment. -/
inductive Err where
  | NotFound
  | InvalidState
  | NoProvidersAvailable
  | ProviderBusy
  | NoAssignment
deriving DecidableEq

/-- Decidable equality on Except values, so concrete runs of the operations
can be checked by decide. -/
instance {ε α : Type} [DecidableEq ε] [DecidableEq α] : DecidableEq (Except ε α) :=
  fun x y =>
    match x, y with
    | Except.ok a, Except.ok b =>
      if h : a = b then isTrue (by rw [h])
      else isFalse (fun hc => h (by injection hc))
    | Except.error e, Except.error f =>
      if h : e = f then isTrue (by rw [h])
      else isFalse (fun hc => h (by injection hc))
    | Except.ok _, Except.error _ => isFalse (fun hc => Except.noConfusion hc)
    | Except.error _, Except.ok _ => isFalse (fun hc => Except.noConfusion hc)

/-- Primary-key lookup, AssistanceRequest.objects.get(id=request_id). -/
def findRequest (db : DB) (request_id : Nat) : Option AssistanceRequest :=
  db.requests.find? (fun r => r.id == request_id)

/-- The one-to-one reverse accessor req.assignment, read through
getattr(req, "assignment", None): the assignment row whose request is the
given one, if any. -/
def findAssignment (db : DB) (request_id : Nat) : Option ServiceAssignment :=
  db.assignments.find? (fun a => a.request_id == request_id)

/-- req.status = st followed by req.save(update_fields=["status"]): update the
status column of the row with the given primary key. -/
def setRequestStatus (db : DB) (request_id : Nat) (st : Status) : DB :=
  { db with
    requests :=
      db.requests.map (fun r => if r.id == request_id then { r with status := st } else r) }

/-- provider.is_available = b followed by
provider.save(update_fields=["is_available"]). -/
def setProviderAvailability (db : DB) (provider_id : Nat) (b : Bool) : DB :=
  { db with
    providers :=
      db.providers.map (fun p => if p.id == provider_id then { p with is_available := b } else p) }

/-- The Python builtin min(x :: xs, key=key): fold that keeps the current
minimum and replaces it only on a strictly smaller key, so the first element
attaining the minimal key wins. -/
def pyMin {α : Type} (key : α → ℚ) (x : α) (xs : List α) : α :=
  xs.foldl (fun b a => if key a < key b then a else b) x

/-- The type of the distance oracle fed to min.  In the source it is
_haversine_distance on floats, a transcendental computation; the engine is
parametrised by it, and the haversine formula itself is embedded over the
reals further below. -/
abbrev Dist := ℚ → ℚ → ℚ → ℚ → ℚ

/-- AssistanceService.find_nearest_available_provider: linear scan of the
available providers, Python min by distance to the given point; ValueError
(NoProvidersAvailable) when the candidate list is empty. -/
def find_nearest_available_provider (d : Dist) (db : DB) (lat lon : ℚ) :
    Except Err Provider :=
  match db.providers.filter (fun p => p.is_available) with
  | [] => Except.error Err.NoProvidersAvailable
  | p0 :: rest => Except.ok (pyMin (fun p => d lat lon p.lat p.lon) p0 rest)

/-- The write sequence of the dispatch success path, in source order: flag the
chosen provider busy, create the assignment row, move the request to
DISPATCHED, and enqueue the post-commit notification job. -/
def dispatchSuccessState (db : DB) (req : AssistanceRequest) (provider : Provider) : DB :=
  let db1 := setProviderAvailability db provider.id false
  let db2 := { db1 with assignments := db1.assignments ++ [⟨req.id, provider.id⟩] }
  let db3 := setRequestStatus db2 req.id Status.DISPATCHED
  { db3 with notification_queue := db3.notification_queue ++ [req.id] }

/-- AssistanceService.assign_provider_atomic, the dispatch operation.  A raise
inside transaction.atomic rolls every write back, so each error path returns
the caller database unchanged.  On success the provider is flagged busy, the
assignment row is created, the request becomes DISPATCHED, and on_commit
enqueues exactly one notification job after the commit. -/
def assign_provider_atomic (d : Dist) (db : DB) (request_id : Nat) :
    DB × Except Err ServiceAssignment :=
  match findRequest db request_id with
  | none => (db, Except.error Err.NotFound)
  | some req =>
    if req.status ≠ Status.PENDING then (db, Except.error Err.InvalidState)
    else
      match db.providers.filter (fun p => p.is_available) with
      | [] => (db, Except.error Err.NoProvidersAvailable)
      | p0 :: rest =>
        let provider := pyMin (fun p => d req.lat req.lon p.lat p.lon) p0 rest
        if provider.is_available = false then (db, Except.error Err.ProviderBusy)
        else (dispatchSuccessState db req provider, Except.ok ⟨req.id, provider.id⟩)

/-- AssistanceService.complete_request: only a DISPATCHED request completes;
the linked provider is released and the request becomes COMPLETED, all in one
transaction. -/
def complete_request (db : DB) (request_id : Nat) : DB × Except Err Unit :=
  match findRequest db request_id with
  | none => (db, Except.error Err.NotFound)
  | some req =>
    if req.status ≠ Status.DISPATCHED then (db, Except.error Err.InvalidState)
    else
      match findAssignment db req.id with
      | none => (db, Except.error Err.NoAssignment)
      | some assignment =>
        let db1 := setProviderAvailability db assignment.provider_id true
        let db2 := setRequestStatus db1 req.id Status.COMPLETED
        (db2, Except.ok ())

/-- AssistanceService.cancel_request: a COMPLETED request cannot be
cancelled; an already CANCELLED request is a silent no-op; a DISPATCHED
request releases its linked provider (when one exists) before the status
turns CANCELLED; a PENDING request just turns CANCELLED. -/
def cancel_request (db : DB) (request_id : Nat) : DB × Except Err Unit :=
  match findRequest db request_id with
  | none => (db, Except.error Err.NotFound)
  | some req =>
    if req.status = Status.COMPLETED then (db, Except.error Err.InvalidState)
    else if req.status = Status.CANCELLED then (db, Except.ok ())
    else
      let db1 :=
        if req.status = Status.DISPATCHED then
          match findAssignment db req.id with
          | some assignment => setProviderAvailability db assignment.provider_id true
          | none => db
        else db
      (setRequestStatus db1 req.id Status.CANCELLED, Except.ok ())

/-- Status column of a request row, read through the primary key. -/
def statusOf (db : DB) (request_id : Nat) : Option Status :=
  (findRequest db request_id).map (fun r => r.status)

/-- One external call into the engine. -/
inductive Op where
  | dispatch (d : Dist) (request_id : Nat)
  | complete (request_id : Nat)
  | cancel (request_id : Nat)

/-- State after one call; a failing call leaves the state unchanged (the
transaction rolled back). -/
def applyOp (op : Op) (db : DB) : DB :=
  match op with
  | Op.dispatch d request_id => (assign_provider_atomic d db request_id).1
  | Op.complete request_id => (complete_request db request_id).1
  | Op.cancel request_id => (cancel_request db request_id).1

/-- Reachability by a finite sequence of dispatch, complete and cancel calls,
successful or failing. -/
inductive Reaches : DB → DB → Prop where
  | refl (db : DB) : Reaches db db
  | step (s t : DB) (op : Op) : Reaches s t → Reaches s (applyOp op t)

/-- The initial condition of the lifecycle claims: no assignment rows, every
request PENDING, every provider available. -/
def InitState (db : DB) : Prop :=
  db.assignments = [] ∧
  (∀ r ∈ db.requests, r.status = Status.PENDING) ∧
  (∀ p ∈ db.providers, p.is_available = true)

/-- An assignment row is active when its request row exists and is in a
non-terminal status (neither COMPLETED nor CANCELLED). -/
def ActiveA (db : DB) (a : ServiceAssignment) : Prop :=
  a ∈ db.assignments ∧
  ∃ r, findRequest db a.request_id = some r ∧
    r.status ≠ Status.COMPLETED ∧ r.status ≠ Status.CANCELLED

/-- No provider is linked by assignment rows to two distinct simultaneously
non-terminal requests. -/
def NoDoubleBooking (db : DB) : Prop :=
  ∀ a1 a2, ActiveA db a1 → ActiveA db a2 →
    a1.request_id ≠ a2.request_id → a1.provider_id ≠ a2.provider_id

/-- Every provider linked to a non-terminal request is flagged unavailable. -/
def BusyForActive (db : DB) : Prop :=
  ∀ a, ActiveA db a → ∀ p ∈ db.providers, p.id = a.provider_id → p.is_available = false

/-- The inductive strengthening of the lifecycle invariant: the one-to-one
constraint on assignment rows, no assignment points at a PENDING request, and
the two claimed properties. -/
def Inv (db : DB) : Prop :=
  (db.assignments.map (fun a => a.request_id)).Nodup ∧
  (∀ a ∈ db.assignments,
    ∃ r, findRequest db a.request_id = some r ∧ r.status ≠ Status.PENDING) ∧
  NoDoubleBooking db ∧ BusyForActive db

/-- The status-transition relation of spec section 4.4: stay put, or move
along PENDING to DISPATCHED, DISPATCHED to COMPLETED or CANCELLED, or PENDING
to CANCELLED. -/
def allowedTransition (s t : Status) : Prop :=
  s = t ∨ (s = Status.PENDING ∧ t = Status.DISPATCHED) ∨
    (s = Status.DISPATCHED ∧ t = Status.COMPLETED) ∨
    (s = Status.DISPATCHED ∧ t = Status.CANCELLED) ∨
    (s = Status.PENDING ∧ t = Status.CANCELLED)

/-- A degenerate distance oracle for concrete runs. -/
def dZero : Dist := fun _ _ _ _ => 0

/-- A distance oracle for concrete runs that reads the distance off the
provider latitude, so provider rows can encode the distances of the worked
example directly. -/
def dLat : Dist := fun _ _ plat _ => plat

/-- Concrete state: one PENDING request and one available provider. -/
def dbPend : DB :=
  { requests := [⟨1, 0, 0, Status.PENDING⟩]
  , providers := [⟨4, 2, 3, true⟩]
  , assignments := []
  , notification_queue := [] }

/-- Concrete state: one DISPATCHED request assigned to the one (busy)
provider. -/
def dbDisp : DB :=
  { requests := [⟨1, 0, 0, Status.DISPATCHED⟩]
  , providers := [⟨4, 2, 3, false⟩]
  , assignments := [⟨1, 4⟩]
  , notification_queue := [1] }

/-- Concrete state: one DISPATCHED request with no assignment row at all. -/
def dbNoAssign : DB :=
  { requests := [⟨1, 0, 0, Status.DISPATCHED⟩]
  , providers := [⟨4, 2, 3, false⟩]
  , assignments := []
  , notification_queue := [] }

/-- Concrete state for the tie-break example of the spec: one PENDING request
at the origin and three available providers whose latitudes encode distances
3.0, 1.0 and 1.0 under dLat, the two tied ones carrying identities 7 and 2,
with identity 7 stored before identity 2 in the provider table. -/
def dbC3 : DB :=
  { requests := [⟨1, 0, 0, Status.PENDING⟩]
  , providers := [⟨9, 3, 0, true⟩, ⟨7, 1, 0, true⟩, ⟨2, 1, 0, true⟩]
  , assignments := []
  , notification_queue := [] }

/-- Outcome of one execution of the notification task body. -/
inductive NotifyOutcome where
  | success (request_id : Nat)
  | retryAfter (countdown_seconds : Nat)
  | terminal_failure
deriving DecidableEq

/-- The shared_task option max_retries=5 on notify_insurance_company_task. -/
def max_retries : Nat := 5

/-- One execution of notify_insurance_company_task in tasks.py.  retries is
self.request.retries, the number of retries so far (the attempt number,
starting at 0); api_fails abstracts the random InsuranceAPIError of the
mocked call.  On failure past the retry budget the task re-raises (terminal
failure); otherwise it schedules a retry with countdown
min(2 ** retries, 16) * 60 seconds, that is min(2 ^ retries, 16) minutes. -/
def notify_insurance_company_task (retries : Nat) (api_fails : Bool) (request_id : Nat) :
    NotifyOutcome :=
  if api_fails = false then NotifyOutcome.success request_id
  else if max_retries ≤ retries then NotifyOutcome.terminal_failure
  else NotifyOutcome.retryAfter (min (2 ^ retries) 16 * 60)

noncomputable section

/-- math.radians: degrees to radians. -/
def radians (x : ℝ) : ℝ := x * Real.pi / 180

/-- math.atan2 with its standard quadrant-aware meaning; the haversine code
only ever calls it with both arguments non-negative and not both zero, where
it agrees with arctan of the quotient. -/
def atan2 (y x : ℝ) : ℝ :=
  if 0 < x then Real.arctan (y / x)
  else if x < 0 then
    (if 0 ≤ y then Real.arctan (y / x) + Real.pi else Real.arctan (y / x) - Real.pi)
  else
    (if 0 < y then Real.pi / 2 else if y < 0 then -(Real.pi / 2) else 0)

/-- AssistanceService._haversine_distance embedded over the real numbers: the
haversine great-circle formula in kilometres with Earth radius 6371 km.  The
source computes it on IEEE floats; the embedding states its exact
mathematical content. -/
def haversine_distance (lat1 lon1 lat2 lon2 : ℝ) : ℝ :=
  let r : ℝ := 6371
  let phi1 := radians lat1
  let phi2 := radians lat2
  let d_phi := radians (lat2 - lat1)
  let d_lambda := radians (lon2 - lon1)
  let a :=
    Real.sin (d_phi / 2) ^ 2 + Real.cos phi1 * Real.cos phi2 * Real.sin (d_lambda / 2) ^ 2
  let c := 2 * atan2 (Real.sqrt a) (Real.sqrt (1 - a))
  r * c

end

/-! Helper lemmas about the Python min fold. -/

theorem pyMin_nil {α : Type} (key : α → ℚ) (x : α) : pyMin key x [] = x := rfl

theorem pyMin_cons {α : Type} (key : α → ℚ) (x y : α) (ys : List α) :
    pyMin key x (y :: ys) = pyMin key (if key y < key x then y else x) ys := rfl

/-- The result of the min fold has a key less than or equal to every element
of the scanned list (initial element included). -/
theorem pyMin_le {α : Type} (key : α → ℚ) (xs : List α) :
    ∀ x, ∀ y ∈ x :: xs, key (pyMin key x xs) ≤ key y := by
  induction xs with
  | nil =>
    intro x y hy
    rw [List.mem_singleton] at hy
    subst hy
    exact le_refl _
  | cons z zs ih =>
    intro x y hy
    rw [pyMin_cons]
    have hw : key (if key z < key x then z else x) ≤ key x := by
      by_cases h : key z < key x
      · simpa [h] using le_of_lt h
      · simp [h]
    have hwz : key (if key z < key x then z else x) ≤ key z := by
      by_cases h : key z < key x
      · simp [h]
      · simpa [h] using not_lt.mp h
    have hmin := ih (if key z < key x then z else x) _ (List.mem_cons_self _ _)
    rcases List.mem_cons.mp hy with rfl | hy2
    · exact le_trans hmin hw
    rcases List.mem_cons.mp hy2 with rfl | hy3
    · exact le_trans hmin hwz
    · exact ih _ y (List.mem_cons_of_mem _ hy3)

/-- The min fold returns the first element attaining the minimal key: the
scanned list splits into a strict-greater prefix, the result, and a suffix of
elements with greater-or-equal keys. -/
theorem pyMin_first_min {α : Type} (key : α → ℚ) (xs : List α) :
    ∀ x, ∃ l1 l2, x :: xs = l1 ++ pyMin key x xs :: l2 ∧
      (∀ y ∈ l1, key (pyMin key x xs) < key y) ∧
      (∀ y ∈ l2, key (pyMin key x xs) ≤ key y) := by
  induction xs with
  | nil =>
    intro x
    exact ⟨[], [], rfl, by simp, by simp⟩
  | cons z zs ih =>
    intro x
    rw [pyMin_cons]
    by_cases h : key z < key x
    · rw [if_pos h]
      obtain ⟨l1, l2, heq, h1, h2⟩ := ih z
      refine ⟨x :: l1, l2, ?_, ?_, h2⟩
      · rw [List.cons_append, ← heq]
      · intro y hy
        rcases List.mem_cons.mp hy with rfl | hy2
        · exact lt_of_le_of_lt (pyMin_le key zs z z (List.mem_cons_self _ _)) h
        · exact h1 y hy2
    · rw [if_neg h]
      obtain ⟨l1, l2, heq, h1, h2⟩ := ih x
      cases l1 with
      | nil =>
        rw [List.nil_append] at heq
        injection heq with hx hzs
        refine ⟨[], z :: zs, ?_, by simp, ?_⟩
        · rw [List.nil_append, ← hx]
        · intro y hy
          rcases List.mem_cons.mp hy with rfl | hy2
          · rw [← hx]; exact not_lt.mp h
          · exact h2 y (hzs ▸ hy2)
      | cons w l1t =>
        rw [List.cons_append] at heq
        injection heq with hx hzs
        refine ⟨x :: z :: l1t, l2, ?_, ?_, h2⟩
        · rw [List.cons_append, List.cons_append, ← hzs]
        · intro y hy
          have hcx : key (pyMin key x zs) < key x := by
            have := h1 w (List.mem_cons_self _ _)
            rw [← hx] at this
            exact this
          rcases List.mem_cons.mp hy with rfl | hy2
          · exact hcx
          rcases List.mem_cons.mp hy2 with rfl | hy3
          · exact lt_of_lt_of_le hcx (not_lt.mp h)
          · exact h1 y (List.mem_cons_of_mem _ hy3)

/-- The min fold returns an element of the scanned list. -/
theorem pyMin_mem {α : Type} (key : α → ℚ) (x : α) (xs : List α) :
    pyMin key x xs ∈ x :: xs := by
  obtain ⟨l1, l2, heq, -, -⟩ := pyMin_first_min key xs x
  rw [heq]
  exact List.mem_append_right l1 (List.mem_cons_self _ _)

/-! Helper lemmas about row lookup after a column update. -/

/-- find? commutes with mapping a function that does not change the predicate
value of any element. -/
theorem find?_map_of_pred {α : Type} (f : α → α) (pred : α → Bool)
    (hf : ∀ x, pred (f x) = pred x) :
    ∀ l : List α, (l.map f).find? pred = (l.find? pred).map f := by
  intro l
  induction l with
  | nil => rfl
  | cons a l ih =>
    cases hpa : pred a with
    | true =>
      rw [List.map_cons, List.find?_cons_of_pos _ (by rw [hf a]; exact hpa),
        List.find?_cons_of_pos _ hpa]
      rfl
    | false =>
      rw [List.map_cons, List.find?_cons_of_neg _ (by rw [hf a, hpa]; exact Bool.false_ne_true),
        List.find?_cons_of_neg _ (by rw [hpa]; exact Bool.false_ne_true), ih]

theorem findRequest_setRequestStatus (db : DB) (i : Nat) (st : Status) (x : Nat) :
    findRequest (setRequestStatus db i st) x =
      (findRequest db x).map (fun r => if r.id == i then { r with status := st } else r) := by
  unfold findRequest setRequestStatus
  exact find?_map_of_pred _ _
    (fun r => by by_cases h : r.id == i <;> simp [h]) db.requests

theorem findRequest_setProviderAvailability (db : DB) (i : Nat) (b : Bool) (x : Nat) :
    findRequest (setProviderAvailability db i b) x = findRequest db x := rfl

theorem findAssignment_setRequestStatus (db : DB) (i : Nat) (st : Status) (x : Nat) :
    findAssignment (setRequestStatus db i st) x = findAssignment db x := rfl

theorem findAssignment_setProviderAvailability (db : DB) (i : Nat) (b : Bool) (x : Nat) :
    findAssignment (setProviderAvailability db i b) x = findAssignment db x := rfl

theorem assignments_setRequestStatus (db : DB) (i : Nat) (st : Status) :
    (setRequestStatus db i st).assignments = db.assignments := rfl

theorem assignments_setProviderAvailability (db : DB) (i : Nat) (b : Bool) :
    (setProviderAvailability db i b).assignments = db.assignments := rfl

theorem providers_setRequestStatus (db : DB) (i : Nat) (st : Status) :
    (setRequestStatus db i st).providers = db.providers := rfl

/-- A successful primary-key lookup returns a member row carrying that key. -/
theorem findRequest_some_facts {db : DB} {x : Nat} {r : AssistanceRequest}
    (h : findRequest db x = some r) : r ∈ db.requests ∧ r.id = x := by
  refine ⟨List.mem_of_find?_eq_some h, ?_⟩
  have := List.find?_some h
  simpa using this

theorem findAssignment_some_facts {db : DB} {x : Nat} {a : ServiceAssignment}
    (h : findAssignment db x = some a) : a ∈ db.assignments ∧ a.request_id = x := by
  refine ⟨List.mem_of_find?_eq_some h, ?_⟩
  have := List.find?_some h
  simpa using this

theorem findAssignment_none_facts {db : DB} {x : Nat}
    (h : findAssignment db x = none) : ∀ a ∈ db.assignments, a.request_id ≠ x := by
  intro a ha
  have := List.find?_eq_none.mp h a ha
  simpa using this

/-! Branch equations of the three operations: one equation per control path
of services.py. -/

theorem dispatch_notfound (d : Dist) (db : DB) (rid : Nat)
    (h : findRequest db rid = none) :
    assign_provider_atomic d db rid = (db, Except.error Err.NotFound) := by
  simp [assign_provider_atomic, h]

theorem dispatch_invalid (d : Dist) (db : DB) (rid : Nat) (req : AssistanceRequest)
    (h : findRequest db rid = some req) (h2 : req.status ≠ Status.PENDING) :
    assign_provider_atomic d db rid = (db, Except.error Err.InvalidState) := by
  simp [assign_provider_atomic, h, h2]

theorem dispatch_noproviders (d : Dist) (db : DB) (rid : Nat) (req : AssistanceRequest)
    (h : findRequest db rid = some req) (h2 : req.status = Status.PENDING)
    (h3 : db.providers.filter (fun p => p.is_available) = []) :
    assign_provider_atomic d db rid = (db, Except.error Err.NoProvidersAvailable) := by
  simp [assign_provider_atomic, h, h2, h3]

theorem chosen_available (d : Dist) (db : DB) (req : AssistanceRequest)
    (p0 : Provider) (rest : List Provider)
    (h3 : db.providers.filter (fun p => p.is_available) = p0 :: rest) :
    (pyMin (fun p => d req.lat req.lon p.lat p.lon) p0 rest).is_available = true ∧
    pyMin (fun p => d req.lat req.lon p.lat p.lon) p0 rest ∈ db.providers := by
  have hpmem : pyMin (fun p => d req.lat req.lon p.lat p.lon) p0 rest ∈
      db.providers.filter (fun p => p.is_available) := by
    rw [h3]; exact pyMin_mem _ p0 rest
  exact ⟨(List.mem_filter.mp hpmem).2, (List.mem_filter.mp hpmem).1⟩

theorem dispatch_success (d : Dist) (db : DB) (rid : Nat) (req : AssistanceRequest)
    (p0 : Provider) (rest : List Provider)
    (h : findRequest db rid = some req) (h2 : req.status = Status.PENDING)
    (h3 : db.providers.filter (fun p => p.is_available) = p0 :: rest) :
    assign_provider_atomic d db rid =
      (dispatchSuccessState db req (pyMin (fun p => d req.lat req.lon p.lat p.lon) p0 rest),
       Except.ok ⟨req.id, (pyMin (fun p => d req.lat req.lon p.lat p.lon) p0 rest).id⟩) := by
  have hpav := (chosen_available d db req p0 rest h3).1
  simp [assign_provider_atomic, h, h2, h3, hpav]

theorem complete_notfound (db : DB) (rid : Nat) (h : findRequest db rid = none) :
    complete_request db rid = (db, Except.error Err.NotFound) := by
  simp [complete_request, h]

theorem complete_invalid (db : DB) (rid : Nat) (req : AssistanceRequest)
    (h : findRequest db rid = some req) (h2 : req.status ≠ Status.DISPATCHED) :
    complete_request db rid = (db, Except.error Err.InvalidState) := by
  simp [complete_request, h, h2]

theorem complete_noassign (db : DB) (rid : Nat) (req : AssistanceRequest)
    (h : findRequest db rid = some req) (h2 : req.status = Status.DISPATCHED)
    (h3 : findAssignment db req.id = none) :
    complete_request db rid = (db, Except.error Err.NoAssignment) := by
  simp [complete_request, h, h2, h3]

theorem complete_success (db : DB) (rid : Nat) (req : AssistanceRequest)
    (a0 : ServiceAssignment)
    (h : findRequest db rid = some req) (h2 : req.status = Status.DISPATCHED)
    (h3 : findAssignment db req.id = some a0) :
    complete_request db rid =
      (setRequestStatus (setProviderAvailability db a0.provider_id true)
        req.id Status.COMPLETED, Except.ok ()) := by
  simp [complete_request, h, h2, h3]

theorem cancel_notfound (db : DB) (rid : Nat) (h : findRequest db rid = none) :
    cancel_request db rid = (db, Except.error Err.NotFound) := by
  simp [cancel_request, h]

theorem cancel_completed (db : DB) (rid : Nat) (req : AssistanceRequest)
    (h : findRequest db rid = some req) (h2 : req.status = Status.COMPLETED) :
    cancel_request db rid = (db, Except.error Err.InvalidState) := by
  simp [cancel_request, h, h2]

theorem cancel_cancelled (db : DB) (rid : Nat) (req : AssistanceRequest)
    (h : findRequest db rid = some req) (h2 : req.status = Status.CANCELLED) :
    cancel_request db rid = (db, Except.ok ()) := by
  simp [cancel_request, h, h2]

theorem cancel_dispatched_some (db : DB) (rid : Nat) (req : AssistanceRequest)
    (a0 : ServiceAssignment)
    (h : findRequest db rid = some req) (h2 : req.status = Status.DISPATCHED)
    (h3 : findAssignment db req.id = some a0) :
    cancel_request db rid =
      (setRequestStatus (setProviderAvailability db a0.provider_id true)
        req.id Status.CANCELLED, Except.ok ()) := by
  simp [cancel_request, h, h2, h3]

theorem cancel_dispatched_none (db : DB) (rid : Nat) (req : AssistanceRequest)
    (h : findRequest db rid = some req) (h2 : req.status = Status.DISPATCHED)
    (h3 : findAssignment db req.id = none) :
    cancel_request db rid = (setRequestStatus db req.id Status.CANCELLED, Except.ok ()) := by
  simp [cancel_request, h, h2, h3]

theorem cancel_pending (db : DB) (rid : Nat) (req : AssistanceRequest)
    (h : findRequest db rid = some req) (h2 : req.status = Status.PENDING) :
    cancel_request db rid = (setRequestStatus db req.id Status.CANCELLED, Except.ok ()) := by
  simp [cancel_request, h, h2]

/-! Components of the dispatch success state. -/

theorem requests_dispatchSuccessState (db : DB) (req : AssistanceRequest) (p : Provider) :
    (dispatchSuccessState db req p).requests =
      db.requests.map
        (fun r => if r.id == req.id then { r with status := Status.DISPATCHED } else r) := rfl

theorem providers_dispatchSuccessState (db : DB) (req : AssistanceRequest) (p : Provider) :
    (dispatchSuccessState db req p).providers =
      db.providers.map
        (fun q => if q.id == p.id then { q with is_available := false } else q) := rfl

theorem assignments_dispatchSuccessState (db : DB) (req : AssistanceRequest) (p : Provider) :
    (dispatchSuccessState db req p).assignments = db.assignments ++ [⟨req.id, p.id⟩] := rfl

theorem queue_dispatchSuccessState (db : DB) (req : AssistanceRequest) (p : Provider) :
    (dispatchSuccessState db req p).notification_queue =
      db.notification_queue ++ [req.id] := rfl

theorem findRequest_dispatchSuccessState (db : DB) (req : AssistanceRequest) (p : Provider)
    (x : Nat) :
    findRequest (dispatchSuccessState db req p) x =
      (findRequest db x).map
        (fun r => if r.id == req.id then { r with status := Status.DISPATCHED } else r) := by
  show (List.find? _ _) = _
  rw [requests_dispatchSuccessState]
  exact find?_map_of_pred _ _
    (fun r => by by_cases h : r.id == req.id <;> simp [h]) db.requests

/-! Transfer of activity of an assignment row across column updates. -/

theorem ActiveA_setProviderAvailability (db : DB) (i : Nat) (b : Bool)
    (a : ServiceAssignment) :
    ActiveA (setProviderAvailability db i b) a ↔ ActiveA db a := Iff.rfl

theorem ActiveA_setRequestStatus_of_ne (db : DB) (i : Nat) (st : Status)
    (a : ServiceAssignment) (hne : a.request_id ≠ i) :
    ActiveA (setRequestStatus db i st) a ↔ ActiveA db a := by
  unfold ActiveA
  rw [assignments_setRequestStatus, findRequest_setRequestStatus]
  cases hf : findRequest db a.request_id with
  | none => simp
  | some r =>
    have hrid : r.id = a.request_id := (findRequest_some_facts hf).2
    simp [hrid, hne]

/-- No assignment row points at a request that is still PENDING; a
consequence of the inductive invariant. -/
theorem no_assignment_of_pending (db : DB) (i : Nat) (req : AssistanceRequest)
    (hreq : findRequest db i = some req) (hpend : req.status = Status.PENDING)
    (hInv : Inv db) : ∀ a ∈ db.assignments, a.request_id ≠ i := by
  intro a ha hcon
  obtain ⟨r, hr, hrp⟩ := hInv.2.1 a ha
  rw [hcon, hreq] at hr
  injection hr with hre
  rw [hre] at hpend
  exact hrp hpend

/-! Preservation of the inductive invariant by each operation. -/

theorem Inv_setStatus_noassign (db : DB) (i : Nat) (st : Status)
    (hst : st ≠ Status.PENDING)
    (hnoa : ∀ a ∈ db.assignments, a.request_id ≠ i) (hInv : Inv db) :
    Inv (setRequestStatus db i st) := by
  obtain ⟨h1, h2, h3, h4⟩ := hInv
  refine ⟨h1, ?_, ?_, ?_⟩
  · intro a ha
    obtain ⟨r, hr, hrp⟩ := h2 a ha
    rw [findRequest_setRequestStatus, hr]
    by_cases h : r.id = i
    · exact ⟨{ r with status := st }, by simp [h], hst⟩
    · exact ⟨r, by simp [h], hrp⟩
  · intro a1 a2 ha1 ha2 hne
    exact h3 a1 a2
      ((ActiveA_setRequestStatus_of_ne db i st a1 (hnoa a1 ha1.1)).mp ha1)
      ((ActiveA_setRequestStatus_of_ne db i st a2 (hnoa a2 ha2.1)).mp ha2) hne
  · intro a ha p hp hpid
    exact h4 a ((ActiveA_setRequestStatus_of_ne db i st a (hnoa a ha.1)).mp ha) p hp hpid

theorem Inv_release (db : DB) (i : Nat) (req : AssistanceRequest)
    (a0 : ServiceAssignment) (st : Status)
    (hst : st ≠ Status.PENDING)
    (hterm : st ≠ Status.DISPATCHED)
    (hreq : findRequest db i = some req) (hdisp : req.status = Status.DISPATCHED)
    (ha0 : findAssignment db i = some a0) (hInv : Inv db) :
    Inv (setRequestStatus (setProviderAvailability db a0.provider_id true) i st) := by
  obtain ⟨h1, h2, h3, h4⟩ := hInv
  obtain ⟨ha0mem, ha0rid⟩ := findAssignment_some_facts ha0
  have hreqid : req.id = i := (findRequest_some_facts hreq).2
  have ha0act : ActiveA db a0 := by
    refine ⟨ha0mem, req, ?_, ?_, ?_⟩
    · rw [ha0rid]; exact hreq
    · rw [hdisp]; intro hc; cases hc
    · rw [hdisp]; intro hc; cases hc
  -- any row active after the update was active before and is not the one at i
  have hkey : ∀ a,
      ActiveA (setRequestStatus (setProviderAvailability db a0.provider_id true) i st) a →
      a.request_id ≠ i ∧ ActiveA db a := by
    intro a ha
    by_cases hri : a.request_id = i
    · exfalso
      obtain ⟨ham, r, hr, hc1, hc2⟩ := ha
      rw [hri, findRequest_setRequestStatus, findRequest_setProviderAvailability, hreq] at hr
      have hr2 : some (if req.id == i then { req with status := st } else req) = some r := hr
      rw [if_pos (beq_iff_eq.mpr hreqid)] at hr2
      injection hr2 with hre
      rw [← hre] at hc1 hc2
      cases hs : st with
      | PENDING => exact hst hs
      | DISPATCHED => exact hterm hs
      | COMPLETED => exact hc1 (by simp [hs])
      | CANCELLED => exact hc2 (by simp [hs])
    · refine ⟨hri, ?_⟩
      exact (ActiveA_setProviderAvailability db a0.provider_id true a).mp
        ((ActiveA_setRequestStatus_of_ne _ i st a hri).mp ha)
  refine ⟨h1, ?_, ?_, ?_⟩
  · intro a ha
    obtain ⟨r, hr, hrp⟩ := h2 a ha
    rw [findRequest_setRequestStatus, findRequest_setProviderAvailability, hr]
    by_cases h : r.id = i
    · exact ⟨{ r with status := st }, by simp [h], hst⟩
    · exact ⟨r, by simp [h], hrp⟩
  · intro a1 a2 ha1 ha2 hne
    exact h3 a1 a2 (hkey a1 ha1).2 (hkey a2 ha2).2 hne
  · intro a ha p hp hpid
    obtain ⟨hne, hact⟩ := hkey a ha
    have hp2 : p ∈ db.providers.map
        (fun q => if q.id == a0.provider_id then { q with is_available := true } else q) := hp
    obtain ⟨q, hq, hqe⟩ := List.mem_map.mp hp2
    by_cases hb : q.id = a0.provider_id
    · exfalso
      have hpq : p = { q with is_available := true } := by rw [← hqe]; simp [hb]
      have hpa0 : a.provider_id = a0.provider_id := by
        rw [← hpid, hpq]
        exact hb
      have hdiff := h3 a a0 hact ha0act (by rw [ha0rid]; exact hne)
      exact hdiff hpa0
    · have hpq : p = q := by rw [← hqe]; simp [hb]
      rw [hpq]
      exact h4 a hact q hq (by rw [← hpq]; exact hpid)

theorem Inv_dispatch_success (db : DB) (req : AssistanceRequest) (p : Provider)
    (hreq : findRequest db req.id = some req)
    (hpend : req.status = Status.PENDING)
    (hpin : p ∈ db.providers) (hpav : p.is_available = true)
    (hInv : Inv db) : Inv (dispatchSuccessState db req p) := by
  obtain ⟨h1, h2, h3, h4⟩ := hInv
  have K1 : ∀ a ∈ db.assignments, a.request_id ≠ req.id :=
    no_assignment_of_pending db req.id req hreq hpend ⟨h1, h2, h3, h4⟩
  -- no existing active row uses the chosen (still available) provider
  have hpnot : ∀ a, ActiveA db a → a.provider_id ≠ p.id := by
    intro a ha hc
    have hfalse := h4 a ha p hpin hc.symm
    rw [hpav] at hfalse
    cases hfalse
  -- activity after the success writes
  have hact : ∀ a, ActiveA (dispatchSuccessState db req p) a →
      a = ⟨req.id, p.id⟩ ∨ (ActiveA db a ∧ a.request_id ≠ req.id) := by
    intro a ha
    obtain ⟨ham, r, hr, hc1, hc2⟩ := ha
    rw [assignments_dispatchSuccessState] at ham
    rcases List.mem_append.mp ham with hold | hnew
    · right
      have hne := K1 a hold
      refine ⟨?_, hne⟩
      rw [findRequest_dispatchSuccessState] at hr
      cases hfa : findRequest db a.request_id with
      | none => rw [hfa] at hr; cases hr
      | some r0 =>
        rw [hfa] at hr
        have hr0id : r0.id = a.request_id := (findRequest_some_facts hfa).2
        have hne2 : r0.id ≠ req.id := by rw [hr0id]; exact hne
        rw [show (Option.map
            (fun r => if r.id == req.id then { r with status := Status.DISPATCHED } else r)
            (some r0)) = some r0 by simp [hne2]] at hr
        injection hr with hre
        exact ⟨hold, r0, hfa, hre ▸ hc1, hre ▸ hc2⟩
    · left
      simpa using hnew
  refine ⟨?_, ?_, ?_, ?_⟩
  · rw [assignments_dispatchSuccessState, List.map_append]
    refine List.Nodup.append h1 (by simp) ?_
    intro x hx hx2
    simp only [List.map_cons, List.map_nil, List.mem_singleton] at hx2
    obtain ⟨a, ha, haid⟩ := List.mem_map.mp hx
    rw [hx2] at haid
    exact K1 a ha haid
  · intro a ha
    rw [assignments_dispatchSuccessState] at ha
    rcases List.mem_append.mp ha with hold | hnew
    · obtain ⟨r, hr, hrp⟩ := h2 a hold
      rw [findRequest_dispatchSuccessState, hr]
      by_cases h : r.id = req.id
      · exact ⟨{ r with status := Status.DISPATCHED }, by simp [h], by intro hc; cases hc⟩
      · exact ⟨r, by simp [h], hrp⟩
    · have hanew : a = ⟨req.id, p.id⟩ := by simpa using hnew
      rw [hanew]
      rw [findRequest_dispatchSuccessState]
      refine ⟨{ req with status := Status.DISPATCHED }, ?_, by intro hc; cases hc⟩
      show (Option.map _ (findRequest db req.id)) = _
      rw [hreq]
      simp
  · intro a1 a2 ha1 ha2 hne
    rcases hact a1 ha1 with rfl | ⟨hact1, hne1⟩
    · rcases hact a2 ha2 with rfl | ⟨hact2, hne2⟩
      · exact absurd rfl hne
      · intro hc
        exact hpnot a2 hact2 hc.symm
    · rcases hact a2 ha2 with rfl | ⟨hact2, hne2⟩
      · intro hc
        exact hpnot a1 hact1 hc
      · exact h3 a1 a2 hact1 hact2 hne
  · intro a ha q hq hqid
    have hq2 : q ∈ db.providers.map
        (fun q0 => if q0.id == p.id then { q0 with is_available := false } else q0) := hq
    obtain ⟨q0, hq0, hq0e⟩ := List.mem_map.mp hq2
    by_cases hb : q0.id = p.id
    · have hqq : q = { q0 with is_available := false } := by rw [← hq0e]; simp [hb]
      rw [hqq]
    · have hqq : q = q0 := by rw [← hq0e]; simp [hb]
      rcases hact a ha with rfl | ⟨hacta, hnea⟩
      · exfalso
        apply hb
        rw [← hqq]
        exact hqid
      · rw [hqq]
        exact h4 a hacta q0 hq0 (by rw [← hqq]; exact hqid)

/-- Every single call, successful or failing, preserves the inductive
invariant. -/
theorem Inv_applyOp (op : Op) (db : DB) (hInv : Inv db) : Inv (applyOp op db) := by
  cases op with
  | dispatch d rid =>
    show Inv (assign_provider_atomic d db rid).1
    cases hfr : findRequest db rid with
    | none => rw [dispatch_notfound d db rid hfr]; exact hInv
    | some req =>
      by_cases hpend : req.status = Status.PENDING
      · cases hfl : db.providers.filter (fun p => p.is_available) with
        | nil => rw [dispatch_noproviders d db rid req hfr hpend hfl]; exact hInv
        | cons p0 rest =>
          rw [dispatch_success d db rid req p0 rest hfr hpend hfl]
          obtain ⟨hpav, hpin⟩ := chosen_available d db req p0 rest hfl
          have hreq2 : findRequest db req.id = some req := by
            rw [(findRequest_some_facts hfr).2]; exact hfr
          exact Inv_dispatch_success db req _ hreq2 hpend hpin hpav hInv
      · rw [dispatch_invalid d db rid req hfr hpend]; exact hInv
  | complete rid =>
    show Inv (complete_request db rid).1
    cases hfr : findRequest db rid with
    | none => rw [complete_notfound db rid hfr]; exact hInv
    | some req =>
      by_cases hdisp : req.status = Status.DISPATCHED
      · cases hfa : findAssignment db req.id with
        | none => rw [complete_noassign db rid req hfr hdisp hfa]; exact hInv
        | some a0 =>
          rw [complete_success db rid req a0 hfr hdisp hfa]
          have hreq2 : findRequest db req.id = some req := by
            rw [(findRequest_some_facts hfr).2]; exact hfr
          exact Inv_release db req.id req a0 Status.COMPLETED
            (by intro hc; cases hc) (by intro hc; cases hc) hreq2 hdisp hfa hInv
      · rw [complete_invalid db rid req hfr hdisp]; exact hInv
  | cancel rid =>
    show Inv (cancel_request db rid).1
    cases hfr : findRequest db rid with
    | none => rw [cancel_notfound db rid hfr]; exact hInv
    | some req =>
      have hid : req.id = rid := (findRequest_some_facts hfr).2
      by_cases hcomp : req.status = Status.COMPLETED
      · rw [cancel_completed db rid req hfr hcomp]; exact hInv
      by_cases hcanc : req.status = Status.CANCELLED
      · rw [cancel_cancelled db rid req hfr hcanc]; exact hInv
      by_cases hdisp : req.status = Status.DISPATCHED
      · cases hfa : findAssignment db req.id with
        | none =>
          rw [cancel_dispatched_none db rid req hfr hdisp hfa]
          exact Inv_setStatus_noassign db req.id Status.CANCELLED
            (by intro hc; cases hc) (findAssignment_none_facts hfa) hInv
        | some a0 =>
          rw [cancel_dispatched_some db rid req a0 hfr hdisp hfa]
          have hreq2 : findRequest db req.id = some req := by
            rw [hid]; exact hfr
          exact Inv_release db req.id req a0 Status.CANCELLED
            (by intro hc; cases hc) (by intro hc; cases hc) hreq2 hdisp hfa hInv
      · have hpend : req.status = Status.PENDING := by
          cases hs : req.status with
          | PENDING => rfl
          | DISPATCHED => exact absurd hs hdisp
          | COMPLETED => exact absurd hs hcomp
          | CANCELLED => exact absurd hs hcanc
        rw [cancel_pending db rid req hfr hpend]
        have hreq2 : findRequest db req.id = some req := by
          rw [hid]; exact hfr
        exact Inv_setStatus_noassign db req.id Status.CANCELLED
          (by intro hc; cases hc)
          (no_assignment_of_pending db req.id req hreq2 hpend hInv) hInv

/-! Status lookups after each kind of write. -/

theorem statusOf_setRequestStatus (db : DB) (i : Nat) (st : Status) (x : Nat) :
    statusOf (setRequestStatus db i st) x =
      (statusOf db x).map (fun s0 => if x == i then st else s0) := by
  unfold statusOf
  rw [findRequest_setRequestStatus]
  cases hf : findRequest db x with
  | none => rfl
  | some r =>
    have hrid : r.id = x := (findRequest_some_facts hf).2
    by_cases h : x = i <;> simp [hrid, h]

theorem statusOf_setProviderAvailability (db : DB) (i : Nat) (b : Bool) (x : Nat) :
    statusOf (setProviderAvailability db i b) x = statusOf db x := rfl

theorem statusOf_dispatchSuccessState (db : DB) (req : AssistanceRequest) (p : Provider)
    (x : Nat) :
    statusOf (dispatchSuccessState db req p) x =
      (statusOf db x).map (fun s0 => if x == req.id then Status.DISPATCHED else s0) := by
  unfold statusOf
  rw [findRequest_dispatchSuccessState]
  cases hf : findRequest db x with
  | none => rfl
  | some r =>
    have hrid : r.id = x := (findRequest_some_facts hf).2
    by_cases h : x = req.id <;> simp [hrid, h]

theorem option_map_some {α β : Type} (f : α → β) (a : α) :
    Option.map f (some a) = some (f a) := rfl

/-- The status read back at a key is the status of the row found there. -/
theorem statusOf_eq_found (db : DB) (rid : Nat) (req : AssistanceRequest)
    (hfr : findRequest db rid = some req) : statusOf db rid = some req.status := by
  unfold statusOf
  rw [hfr]
  rfl

/-- Writing a status through the found row primary key is read back at the
lookup key. -/
theorem statusOf_set_self (db : DB) (rid : Nat) (req : AssistanceRequest) (st : Status)
    (hreq : findRequest db rid = some req) :
    statusOf (setRequestStatus db req.id st) rid = some st := by
  have hrid : req.id = rid := (findRequest_some_facts hreq).2
  rw [statusOf_setRequestStatus, statusOf_eq_found db rid req hreq, option_map_some,
    if_pos (beq_iff_eq.mpr hrid.symm)]

/-- After the dispatch writes, every provider row carrying the chosen
identity is flagged unavailable. -/
theorem dispatchSuccessState_busy (db : DB) (req : AssistanceRequest) (p : Provider) :
    ∀ q ∈ (dispatchSuccessState db req p).providers, q.id = p.id →
      q.is_available = false := by
  intro q hq hqid
  have hq2 : q ∈ db.providers.map
      (fun q0 => if q0.id == p.id then { q0 with is_available := false } else q0) := hq
  obtain ⟨q0, hq0, hq0e⟩ := List.mem_map.mp hq2
  by_cases hb : q0.id = p.id
  · have hqe : q = { q0 with is_available := false } := by rw [← hq0e]; simp [hb]
    rw [hqe]
  · have hqe : q = q0 := by rw [← hq0e]; simp [hb]
    exfalso
    apply hb
    rw [← hqe]
    exact hqid

/-- Claim C1: starting from a state with no assignments, all requests PENDING
and all providers available, every state reachable by dispatch, complete and
cancel calls links no provider to two simultaneously non-terminal requests,
and every provider linked to a non-terminal request has is_available =
false. -/
theorem lifecycle_invariants (db0 db : DB) (hinit : InitState db0)
    (hreach : Reaches db0 db) : NoDoubleBooking db ∧ BusyForActive db := by
  obtain ⟨hA, hR, hP⟩ := hinit
  have hInv0 : Inv db0 := by
    refine ⟨by rw [hA]; exact List.nodup_nil, ?_, ?_, ?_⟩
    · intro a ha
      rw [hA] at ha
      cases ha
    · intro a1 a2 ha1 ha2 hne
      have hm := ha1.1
      rw [hA] at hm
      cases hm
    · intro a ha p hp hpid
      have hm := ha.1
      rw [hA] at hm
      cases hm
  have hInv : Inv db := by
    induction hreach with
    | refl => exact hInv0
    | step t op hr ih => exact Inv_applyOp op t ih
  exact ⟨hInv.2.2.1, hInv.2.2.2⟩

/-- Witness for claim C1: the concrete initial state dbPend together with the
state after one dispatch call. -/
theorem lifecycle_invariants_witness :
    InitState dbPend ∧
    (NoDoubleBooking (applyOp (Op.dispatch dZero 1) dbPend) ∧
      BusyForActive (applyOp (Op.dispatch dZero 1) dbPend)) := by
  have hinit : InitState dbPend := ⟨rfl, by decide, by decide⟩
  exact ⟨hinit,
    lifecycle_invariants dbPend (applyOp (Op.dispatch dZero 1) dbPend) hinit
      (Reaches.step dbPend dbPend (Op.dispatch dZero 1) (Reaches.refl dbPend))⟩

/-- Claim C2: dispatch on an existing PENDING request with an available
provider returns the created assignment linking the request to the chosen
provider, flags that provider unavailable, moves the request to DISPATCHED
and enqueues exactly one notification job after the commit; it answers
NotFound on a missing request, InvalidState on a non-PENDING status and
NoProvidersAvailable when no provider is available, and on every failure the
returned state is the caller state unchanged (the transaction rolled back),
with no notification enqueued. -/
theorem assign_provider_atomic_spec (d : Dist) (db : DB) (rid : Nat) :
    (findRequest db rid = none →
      assign_provider_atomic d db rid = (db, Except.error Err.NotFound)) ∧
    (∀ req, findRequest db rid = some req → req.status ≠ Status.PENDING →
      assign_provider_atomic d db rid = (db, Except.error Err.InvalidState)) ∧
    (∀ req, findRequest db rid = some req → req.status = Status.PENDING →
      db.providers.filter (fun p => p.is_available) = [] →
      assign_provider_atomic d db rid = (db, Except.error Err.NoProvidersAvailable)) ∧
    (∀ req p0 rest, findRequest db rid = some req → req.status = Status.PENDING →
      db.providers.filter (fun p => p.is_available) = p0 :: rest →
      ∃ p, p ∈ db.providers.filter (fun p => p.is_available) ∧ p.is_available = true ∧
        assign_provider_atomic d db rid =
          (dispatchSuccessState db req p, Except.ok ⟨req.id, p.id⟩) ∧
        (∀ q ∈ (dispatchSuccessState db req p).providers, q.id = p.id →
          q.is_available = false) ∧
        statusOf (dispatchSuccessState db req p) rid = some Status.DISPATCHED ∧
        (dispatchSuccessState db req p).assignments =
          db.assignments ++ [⟨req.id, p.id⟩] ∧
        (dispatchSuccessState db req p).notification_queue =
          db.notification_queue ++ [req.id]) := by
  refine ⟨fun h => dispatch_notfound d db rid h,
    fun req h h2 => dispatch_invalid d db rid req h h2,
    fun req h h2 h3 => dispatch_noproviders d db rid req h h2 h3, ?_⟩
  intro req p0 rest h h2 h3
  refine ⟨pyMin (fun p => d req.lat req.lon p.lat p.lon) p0 rest,
    by rw [h3]; exact pyMin_mem _ p0 rest,
    (chosen_available d db req p0 rest h3).1,
    dispatch_success d db rid req p0 rest h h2 h3,
    dispatchSuccessState_busy db req _, ?_, rfl, rfl⟩
  have hrid : req.id = rid := (findRequest_some_facts h).2
  rw [statusOf_dispatchSuccessState, statusOf_eq_found db rid req h, option_map_some,
    if_pos (beq_iff_eq.mpr hrid.symm)]

/-- Witness for claim C2: one PENDING request, one available provider, and the
fully evaluated successful dispatch. -/
theorem assign_provider_atomic_spec_witness :
    assign_provider_atomic dZero dbPend 1 =
      (dispatchSuccessState dbPend ⟨1, 0, 0, Status.PENDING⟩ ⟨4, 2, 3, true⟩,
       Except.ok ⟨1, 4⟩) := by
  obtain ⟨p, hmem, hav, heq, hrest⟩ :=
    (assign_provider_atomic_spec dZero dbPend 1).2.2.2 ⟨1, 0, 0, Status.PENDING⟩
      ⟨4, 2, 3, true⟩ [] (by decide) rfl (by decide)
  decide

/-- Claim C3, amended: a successful dispatch selects a provider minimising
the distance to the request over all available providers, and whenever
several available providers are tied at the minimal distance the one stored
earliest in the provider iteration order is selected (Python min keeps the
first minimum); the lowest identity wins a tie only when the iteration order
lists the tied providers in ascending identity order. -/
theorem dispatch_selects_first_nearest (d : Dist) (db : DB) (rid : Nat)
    (req : AssistanceRequest) (db2 : DB) (a : ServiceAssignment)
    (hreq : findRequest db rid = some req)
    (hok : assign_provider_atomic d db rid = (db2, Except.ok a)) :
    ∃ p l1 l2, a = ⟨req.id, p.id⟩ ∧
      db.providers.filter (fun q => q.is_available) = l1 ++ p :: l2 ∧
      (∀ q ∈ db.providers.filter (fun q => q.is_available),
        d req.lat req.lon p.lat p.lon ≤ d req.lat req.lon q.lat q.lon) ∧
      (∀ q ∈ l1, d req.lat req.lon p.lat p.lon < d req.lat req.lon q.lat q.lon) ∧
      (∀ q ∈ l2, d req.lat req.lon p.lat p.lon ≤ d req.lat req.lon q.lat q.lon) := by
  by_cases hpend : req.status = Status.PENDING
  · cases hfl : db.providers.filter (fun p => p.is_available) with
    | nil =>
      rw [dispatch_noproviders d db rid req hreq hpend hfl] at hok
      exact absurd (congrArg Prod.snd hok) (by simp)
    | cons p0 rest =>
      rw [dispatch_success d db rid req p0 rest hreq hpend hfl] at hok
      have h2 := congrArg Prod.snd hok
      have h3 : (Except.ok
          (⟨req.id, (pyMin (fun p => d req.lat req.lon p.lat p.lon) p0 rest).id⟩ :
            ServiceAssignment) : Except Err ServiceAssignment) = Except.ok a := h2
      injection h3 with ha
      obtain ⟨l1, l2, hsplit, hl1, hl2⟩ :=
        pyMin_first_min (fun p => d req.lat req.lon p.lat p.lon) rest p0
      refine ⟨pyMin (fun p => d req.lat req.lon p.lat p.lon) p0 rest, l1, l2,
        ha.symm, hsplit, ?_, hl1, hl2⟩
      intro q hq
      exact pyMin_le (fun p => d req.lat req.lon p.lat p.lon) rest p0 q hq
  · rw [dispatch_invalid d db rid req hreq hpend] at hok
    exact absurd (congrArg Prod.snd hok) (by simp)

/-- Counterexample to claim C3 as stated: with the spec worked example
(distances 3.0, 1.0, 1.0, the two tied providers carrying identities 7 and 2)
and identity 7 stored before identity 2, dispatch selects identity 7, not the
lowest identity 2. -/
theorem dispatch_tie_not_lowest_id :
    dbC3.providers.map (fun p => dLat 0 0 p.lat p.lon) = [3, 1, 1] ∧
    dbC3.providers.map (fun p => p.id) = [9, 7, 2] ∧
    (∀ p ∈ dbC3.providers, p.is_available = true) ∧
    (assign_provider_atomic dLat dbC3 1).2 = Except.ok ⟨1, 7⟩ ∧
    (assign_provider_atomic dLat dbC3 1).2 ≠ Except.ok ⟨1, 2⟩ := by
  decide

/-- Witness for the amended claim C3 at the concrete tie-break state. -/
theorem dispatch_selects_first_nearest_witness :
    (assign_provider_atomic dLat dbC3 1).2 = Except.ok ⟨1, 7⟩ := by
  obtain ⟨p, l1, l2, ha, hsplit, hmin, h1, h2⟩ :=
    dispatch_selects_first_nearest dLat dbC3 1 ⟨1, 0, 0, Status.PENDING⟩
      ((assign_provider_atomic dLat dbC3 1).1) ⟨1, 7⟩ (by decide) (by decide)
  decide

/-- A state whose statuses are the old ones with position i overwritten by an
allowed target keeps every pointwise transition inside the relation. -/
theorem statusOf_pointwise_total (db db2 : DB) (i : Nat) (stNew : Status) (x : Nat)
    (s : Status)
    (hmaps : statusOf db2 x = (statusOf db x).map (fun s0 => if x == i then stNew else s0))
    (h1 : statusOf db x = some s)
    (hallow : x = i → allowedTransition s stNew) :
    ∃ s2, statusOf db2 x = some s2 ∧ allowedTransition s s2 := by
  refine ⟨if x == i then stNew else s, by rw [hmaps, h1, option_map_some], ?_⟩
  by_cases hx : x = i
  · rw [if_pos (beq_iff_eq.mpr hx)]
    exact hallow hx
  · rw [if_neg (by simp [hx])]
    exact Or.inl rfl

/-- Total transition soundness of every single call: a status read before a
call always reads back after the call, and the pair of statuses lies in the
allowed transition relation. -/
theorem statusOf_applyOp_total (op : Op) (db : DB) (x : Nat) (s : Status)
    (h1 : statusOf db x = some s) :
    ∃ s2, statusOf (applyOp op db) x = some s2 ∧ allowedTransition s s2 := by
  cases op with
  | dispatch d rid =>
    show ∃ s2, statusOf (assign_provider_atomic d db rid).1 x = some s2 ∧ _
    cases hfr : findRequest db rid with
    | none =>
      rw [dispatch_notfound d db rid hfr]
      exact ⟨s, h1, Or.inl rfl⟩
    | some req =>
      have hrid : req.id = rid := (findRequest_some_facts hfr).2
      by_cases hpend : req.status = Status.PENDING
      · cases hfl : db.providers.filter (fun p => p.is_available) with
        | nil =>
          rw [dispatch_noproviders d db rid req hfr hpend hfl]
          exact ⟨s, h1, Or.inl rfl⟩
        | cons p0 rest =>
          rw [dispatch_success d db rid req p0 rest hfr hpend hfl]
          refine statusOf_pointwise_total db _ req.id Status.DISPATCHED x s
            (statusOf_dispatchSuccessState db req _ x) h1 ?_
          intro hx
          rw [hx, hrid, statusOf_eq_found db rid req hfr] at h1
          injection h1 with hs
          rw [← hs, hpend]
          exact Or.inr (Or.inl ⟨rfl, rfl⟩)
      · rw [dispatch_invalid d db rid req hfr hpend]
        exact ⟨s, h1, Or.inl rfl⟩
  | complete rid =>
    show ∃ s2, statusOf (complete_request db rid).1 x = some s2 ∧ _
    cases hfr : findRequest db rid with
    | none =>
      rw [complete_notfound db rid hfr]
      exact ⟨s, h1, Or.inl rfl⟩
    | some req =>
      have hrid : req.id = rid := (findRequest_some_facts hfr).2
      by_cases hdisp : req.status = Status.DISPATCHED
      · cases hfa : findAssignment db req.id with
        | none =>
          rw [complete_noassign db rid req hfr hdisp hfa]
          exact ⟨s, h1, Or.inl rfl⟩
        | some a0 =>
          rw [complete_success db rid req a0 hfr hdisp hfa]
          refine statusOf_pointwise_total db _ req.id Status.COMPLETED x s ?_ h1 ?_
          · rw [statusOf_setRequestStatus, statusOf_setProviderAvailability]
          · intro hx
            rw [hx, hrid, statusOf_eq_found db rid req hfr] at h1
            injection h1 with hs
            rw [← hs, hdisp]
            exact Or.inr (Or.inr (Or.inl ⟨rfl, rfl⟩))
      · rw [complete_invalid db rid req hfr hdisp]
        exact ⟨s, h1, Or.inl rfl⟩
  | cancel rid =>
    show ∃ s2, statusOf (cancel_request db rid).1 x = some s2 ∧ _
    cases hfr : findRequest db rid with
    | none =>
      rw [cancel_notfound db rid hfr]
      exact ⟨s, h1, Or.inl rfl⟩
    | some req =>
      have hrid : req.id = rid := (findRequest_some_facts hfr).2
      by_cases hcomp : req.status = Status.COMPLETED
      · rw [cancel_completed db rid req hfr hcomp]
        exact ⟨s, h1, Or.inl rfl⟩
      by_cases hcanc : req.status = Status.CANCELLED
      · rw [cancel_cancelled db rid req hfr hcanc]
        exact ⟨s, h1, Or.inl rfl⟩
      by_cases hdisp : req.status = Status.DISPATCHED
      · cases hfa : findAssignment db req.id with
        | none =>
          rw [cancel_dispatched_none db rid req hfr hdisp hfa]
          refine statusOf_pointwise_total db _ req.id Status.CANCELLED x s
            (statusOf_setRequestStatus db req.id Status.CANCELLED x) h1 ?_
          intro hx
          rw [hx, hrid, statusOf_eq_found db rid req hfr] at h1
          injection h1 with hs
          rw [← hs, hdisp]
          exact Or.inr (Or.inr (Or.inr (Or.inl ⟨rfl, rfl⟩)))
        | some a0 =>
          rw [cancel_dispatched_some db rid req a0 hfr hdisp hfa]
          refine statusOf_pointwise_total db _ req.id Status.CANCELLED x s ?_ h1 ?_
          · rw [statusOf_setRequestStatus, statusOf_setProviderAvailability]
          · intro hx
            rw [hx, hrid, statusOf_eq_found db rid req hfr] at h1
            injection h1 with hs
            rw [← hs, hdisp]
            exact Or.inr (Or.inr (Or.inr (Or.inl ⟨rfl, rfl⟩)))
      · have hpend : req.status = Status.PENDING := by
          cases hs2 : req.status with
          | PENDING => rfl
          | DISPATCHED => exact absurd hs2 hdisp
          | COMPLETED => exact absurd hs2 hcomp
          | CANCELLED => exact absurd hs2 hcanc
        rw [cancel_pending db rid req hfr hpend]
        refine statusOf_pointwise_total db _ req.id Status.CANCELLED x s
          (statusOf_setRequestStatus db req.id Status.CANCELLED x) h1 ?_
        intro hx
        rw [hx, hrid, statusOf_eq_found db rid req hfr] at h1
        injection h1 with hs
        rw [← hs, hpend]
        exact Or.inr (Or.inr (Or.inr (Or.inr ⟨rfl, rfl⟩)))

/-- Claim C4: a status observed across any single dispatch, complete or
cancel call only moves along PENDING to DISPATCHED, DISPATCHED to COMPLETED
or CANCELLED, or PENDING to CANCELLED (or stays put); COMPLETED and CANCELLED
are never left; and each operation attempting a transition outside the
relation answers InvalidState with the state unchanged. -/
theorem status_transition_spec :
    (∀ op db rid s s2, statusOf db rid = some s →
      statusOf (applyOp op db) rid = some s2 → allowedTransition s s2) ∧
    (∀ op db rid, statusOf db rid = some Status.COMPLETED →
      statusOf (applyOp op db) rid = some Status.COMPLETED) ∧
    (∀ op db rid, statusOf db rid = some Status.CANCELLED →
      statusOf (applyOp op db) rid = some Status.CANCELLED) ∧
    (∀ d db rid req, findRequest db rid = some req → req.status ≠ Status.PENDING →
      assign_provider_atomic d db rid = (db, Except.error Err.InvalidState)) ∧
    (∀ db rid req, findRequest db rid = some req → req.status ≠ Status.DISPATCHED →
      complete_request db rid = (db, Except.error Err.InvalidState)) ∧
    (∀ db rid req, findRequest db rid = some req → req.status = Status.COMPLETED →
      cancel_request db rid = (db, Except.error Err.InvalidState)) := by
  have hterm : ∀ op db rid s, (s = Status.COMPLETED ∨ s = Status.CANCELLED) →
      statusOf db rid = some s → statusOf (applyOp op db) rid = some s := by
    intro op db rid s hs h1
    obtain ⟨s2, hs2, hall⟩ := statusOf_applyOp_total op db rid s h1
    rcases hall with h | ⟨h, _⟩ | ⟨h, _⟩ | ⟨h, _⟩ | ⟨h, _⟩
    · rw [hs2, ← h]
    all_goals
      rcases hs with hs | hs <;> rw [hs] at h <;> exact Status.noConfusion h
  refine ⟨?_, ?_, ?_, ?_, ?_, ?_⟩
  · intro op db rid s s2 h1 h2
    obtain ⟨s3, hs3, hall⟩ := statusOf_applyOp_total op db rid s h1
    rw [hs3] at h2
    injection h2 with he
    rw [← he]
    exact hall
  · intro op db rid h
    exact hterm op db rid Status.COMPLETED (Or.inl rfl) h
  · intro op db rid h
    exact hterm op db rid Status.CANCELLED (Or.inr rfl) h
  · intro d db rid req h h2
    exact dispatch_invalid d db rid req h h2
  · intro db rid req h h2
    exact complete_invalid db rid req h h2
  · intro db rid req h h2
    exact cancel_completed db rid req h h2

/-- Witness for claim C4: the dispatch of the concrete pending request moves
its status PENDING to DISPATCHED, and completing the same pending request is
rejected with InvalidState leaving the state unchanged. -/
theorem status_transition_spec_witness :
    allowedTransition Status.PENDING Status.DISPATCHED ∧
    complete_request dbPend 1 = (dbPend, Except.error Err.InvalidState) :=
  ⟨status_transition_spec.1 (Op.dispatch dZero 1) dbPend 1 Status.PENDING
      Status.DISPATCHED (by decide) (by decide),
   status_transition_spec.2.2.2.2.1 dbPend 1 ⟨1, 0, 0, Status.PENDING⟩
      (by decide) (by decide)⟩

/-- A request read back as CANCELLED makes cancel a silent no-op. -/
theorem cancel_of_status_cancelled (db : DB) (rid : Nat)
    (h : statusOf db rid = some Status.CANCELLED) :
    cancel_request db rid = (db, Except.ok ()) := by
  unfold statusOf at h
  cases hf : findRequest db rid with
  | none => rw [hf] at h; cases h
  | some r =>
    rw [hf, option_map_some] at h
    injection h with h2
    exact cancel_cancelled db rid r hf h2

/-- Every successful cancel leaves the request readable as CANCELLED. -/
theorem cancel_sets_cancelled (db : DB) (rid : Nat) (req : AssistanceRequest)
    (hreq : findRequest db rid = some req) (h2 : req.status ≠ Status.COMPLETED) :
    (cancel_request db rid).2 = Except.ok () ∧
    statusOf (cancel_request db rid).1 rid = some Status.CANCELLED := by
  cases hs : req.status with
  | COMPLETED => exact absurd hs h2
  | CANCELLED =>
    rw [cancel_cancelled db rid req hreq hs]
    refine ⟨rfl, ?_⟩
    show statusOf db rid = some Status.CANCELLED
    rw [statusOf_eq_found db rid req hreq, hs]
  | PENDING =>
    rw [cancel_pending db rid req hreq hs]
    exact ⟨rfl, statusOf_set_self db rid req Status.CANCELLED hreq⟩
  | DISPATCHED =>
    cases hfa : findAssignment db req.id with
    | none =>
      rw [cancel_dispatched_none db rid req hreq hs hfa]
      exact ⟨rfl, statusOf_set_self db rid req Status.CANCELLED hreq⟩
    | some a0 =>
      rw [cancel_dispatched_some db rid req a0 hreq hs hfa]
      exact ⟨rfl, statusOf_set_self (setProviderAvailability db a0.provider_id true)
        rid req Status.CANCELLED (by rw [findRequest_setProviderAvailability]; exact hreq)⟩

/-- Claim C5: cancel on an existing request is rejected with InvalidState on
COMPLETED, succeeds as a no-op on CANCELLED (so a second cancel succeeds
again and the status stays CANCELLED), on DISPATCHED releases the linked
provider before the status turns CANCELLED, and on PENDING turns the status
CANCELLED touching no provider. -/
theorem cancel_request_spec (db : DB) (rid : Nat) (req : AssistanceRequest)
    (hreq : findRequest db rid = some req) :
    (req.status = Status.COMPLETED →
      cancel_request db rid = (db, Except.error Err.InvalidState)) ∧
    (req.status = Status.CANCELLED → cancel_request db rid = (db, Except.ok ())) ∧
    (∀ a, req.status = Status.DISPATCHED → findAssignment db rid = some a →
      cancel_request db rid =
        (setRequestStatus (setProviderAvailability db a.provider_id true) req.id
          Status.CANCELLED, Except.ok ())) ∧
    (req.status = Status.PENDING →
      cancel_request db rid = (setRequestStatus db req.id Status.CANCELLED, Except.ok ()) ∧
      (setRequestStatus db req.id Status.CANCELLED).providers = db.providers) ∧
    (req.status ≠ Status.COMPLETED →
      (cancel_request db rid).2 = Except.ok () ∧
      statusOf (cancel_request db rid).1 rid = some Status.CANCELLED ∧
      cancel_request (cancel_request db rid).1 rid =
        ((cancel_request db rid).1, Except.ok ())) := by
  have hrid : req.id = rid := (findRequest_some_facts hreq).2
  refine ⟨fun h2 => cancel_completed db rid req hreq h2,
    fun h2 => cancel_cancelled db rid req hreq h2, ?_, ?_, ?_⟩
  · intro a h2 h3
    rw [← hrid] at h3
    exact cancel_dispatched_some db rid req a hreq h2 h3
  · intro h2
    exact ⟨cancel_pending db rid req hreq h2, rfl⟩
  · intro h2
    have hset := cancel_sets_cancelled db rid req hreq h2
    exact ⟨hset.1, hset.2, cancel_of_status_cancelled (cancel_request db rid).1 rid hset.2⟩

/-- Witness for claim C5: cancelling the concrete dispatched request releases
provider 4 and the second cancel is a successful no-op. -/
theorem cancel_request_spec_witness :
    cancel_request dbDisp 1 =
      (setRequestStatus (setProviderAvailability dbDisp 4 true) 1 Status.CANCELLED,
       Except.ok ()) ∧
    cancel_request (cancel_request dbDisp 1).1 1 =
      ((cancel_request dbDisp 1).1, Except.ok ()) := by
  have h := cancel_request_spec dbDisp 1 ⟨1, 0, 0, Status.DISPATCHED⟩ (by decide)
  exact ⟨h.2.2.1 ⟨1, 4⟩ rfl (by decide), (h.2.2.2.2 (by decide)).2.2⟩

/-- Claim C6: complete on an existing request is rejected with InvalidState
unless the status is DISPATCHED, rejected with NoAssignment when no linked
assignment row exists, and otherwise releases the linked provider (which then
appears in the available candidate set of any later dispatch) and moves the
request to COMPLETED. -/
theorem complete_request_spec (db : DB) (rid : Nat) (req : AssistanceRequest)
    (hreq : findRequest db rid = some req) :
    (req.status ≠ Status.DISPATCHED →
      complete_request db rid = (db, Except.error Err.InvalidState)) ∧
    (req.status = Status.DISPATCHED → findAssignment db rid = none →
      complete_request db rid = (db, Except.error Err.NoAssignment)) ∧
    (∀ a, req.status = Status.DISPATCHED → findAssignment db rid = some a →
      complete_request db rid =
        (setRequestStatus (setProviderAvailability db a.provider_id true) req.id
          Status.COMPLETED, Except.ok ()) ∧
      statusOf (complete_request db rid).1 rid = some Status.COMPLETED ∧
      (∀ p ∈ db.providers, p.id = a.provider_id →
        { p with is_available := true } ∈
          (complete_request db rid).1.providers.filter (fun q => q.is_available))) := by
  have hrid : req.id = rid := (findRequest_some_facts hreq).2
  refine ⟨fun h2 => complete_invalid db rid req hreq h2, ?_, ?_⟩
  · intro h2 h3
    rw [← hrid] at h3
    exact complete_noassign db rid req hreq h2 h3
  · intro a h2 h3
    rw [← hrid] at h3
    have heq := complete_success db rid req a hreq h2 h3
    refine ⟨heq, ?_, ?_⟩
    · rw [heq]
      exact statusOf_set_self (setProviderAvailability db a.provider_id true)
        rid req Status.COMPLETED (by rw [findRequest_setProviderAvailability]; exact hreq)
    · intro p hp hpid
      rw [heq]
      refine List.mem_filter.mpr ⟨?_, rfl⟩
      show { p with is_available := true } ∈ db.providers.map
        (fun q => if q.id == a.provider_id then { q with is_available := true } else q)
      refine List.mem_map.mpr ⟨p, hp, ?_⟩
      simp [hpid]

/-- Witness for claim C6: completing the concrete dispatched request releases
provider 4 into the available candidate set. -/
theorem complete_request_spec_witness :
    complete_request dbDisp 1 =
      (setRequestStatus (setProviderAvailability dbDisp 4 true) 1 Status.COMPLETED,
       Except.ok ()) ∧
    (⟨4, 2, 3, true⟩ : Provider) ∈
      (complete_request dbDisp 1).1.providers.filter (fun q => q.is_available) := by
  have h := (complete_request_spec dbDisp 1 ⟨1, 0, 0, Status.DISPATCHED⟩ (by decide)).2.2
    ⟨1, 4⟩ rfl (by decide)
  exact ⟨h.1, h.2.2 ⟨4, 2, 3, false⟩ (by decide) rfl⟩

/-- Claim C8: the defensive post-lock availability re-check never fires: no
execution of dispatch returns the ProviderBusy error, because the chosen
provider is drawn from the list filtered to is_available = true inside the
same transaction. -/
theorem provider_busy_unreachable (d : Dist) (db : DB) (rid : Nat) :
    (assign_provider_atomic d db rid).2 ≠ Except.error Err.ProviderBusy := by
  cases hfr : findRequest db rid with
  | none => rw [dispatch_notfound d db rid hfr]; simp
  | some req =>
    by_cases hpend : req.status = Status.PENDING
    · cases hfl : db.providers.filter (fun p => p.is_available) with
      | nil => rw [dispatch_noproviders d db rid req hfr hpend hfl]; simp
      | cons p0 rest => rw [dispatch_success d db rid req p0 rest hfr hpend hfl]; simp
    · rw [dispatch_invalid d db rid req hfr hpend]; simp

/-- Witness for claim C8 at a concrete dispatch run. -/
theorem provider_busy_unreachable_witness :
    (assign_provider_atomic dZero dbPend 1).2 ≠ Except.error Err.ProviderBusy :=
  provider_busy_unreachable dZero dbPend 1

/-- Claim C10: cancel on a DISPATCHED request with no linked assignment row
succeeds, turns the status CANCELLED and leaves every provider row unchanged,
while complete on the same state is rejected with NoAssignment. -/
theorem cancel_no_assignment_spec (db : DB) (rid : Nat) (req : AssistanceRequest)
    (hreq : findRequest db rid = some req) (hdisp : req.status = Status.DISPATCHED)
    (hna : findAssignment db rid = none) :
    cancel_request db rid = (setRequestStatus db req.id Status.CANCELLED, Except.ok ()) ∧
    (setRequestStatus db req.id Status.CANCELLED).providers = db.providers ∧
    statusOf (setRequestStatus db req.id Status.CANCELLED) rid = some Status.CANCELLED ∧
    complete_request db rid = (db, Except.error Err.NoAssignment) := by
  have hrid : req.id = rid := (findRequest_some_facts hreq).2
  rw [← hrid] at hna
  exact ⟨cancel_dispatched_none db rid req hreq hdisp hna, rfl,
    statusOf_set_self db rid req Status.CANCELLED hreq,
    complete_noassign db rid req hreq hdisp hna⟩

/-- Witness for claim C10 at the concrete assignment-free dispatched state. -/
theorem cancel_no_assignment_spec_witness :
    cancel_request dbNoAssign 1 =
      (setRequestStatus dbNoAssign 1 Status.CANCELLED, Except.ok ()) ∧
    complete_request dbNoAssign 1 = (dbNoAssign, Except.error Err.NoAssignment) := by
  have h := cancel_no_assignment_spec dbNoAssign 1 ⟨1, 0, 0, Status.DISPATCHED⟩
    (by decide) rfl (by decide)
  exact ⟨h.1, h.2.2.2⟩

/-- Claim C7: a notification attempt numbered k (k starting at 0) that fails
is retried after min(2 ^ k, 16) time units (minutes, stored as a countdown of
min(2 ^ k, 16) * 60 seconds), so the delays for attempts 0 through 4 are
1, 2, 4, 8 and 16; once the retry budget of max_retries = 5 is exhausted the
task raises a terminal failure instead of retrying. -/
theorem notify_backoff_spec :
    (∀ k rid, k < max_retries →
      notify_insurance_company_task k true rid =
        NotifyOutcome.retryAfter (min (2 ^ k) 16 * 60)) ∧
    ((List.range max_retries).map (fun k => min (2 ^ k) 16) = [1, 2, 4, 8, 16]) ∧
    (∀ k rid, max_retries ≤ k →
      notify_insurance_company_task k true rid = NotifyOutcome.terminal_failure) := by
  refine ⟨?_, by decide, ?_⟩
  · intro k rid hk
    unfold notify_insurance_company_task
    rw [if_neg (by simp), if_neg (not_le.mpr hk)]
  · intro k rid hk
    unfold notify_insurance_company_task
    rw [if_neg (by simp), if_pos hk]

/-- Witness for claim C7: the first failing attempt is retried after one
minute and the sixth execution fails terminally. -/
theorem notify_backoff_spec_witness :
    notify_insurance_company_task 0 true 1 = NotifyOutcome.retryAfter 60 ∧
    notify_insurance_company_task 5 true 1 = NotifyOutcome.terminal_failure := by
  constructor
  · exact notify_backoff_spec.1 0 1 (by decide)
  · exact notify_backoff_spec.2.2 5 1 (by decide)

/-- Claim C9: the distance function is the haversine great-circle formula in
kilometres with Earth radius 6371 km, every point is at distance zero from
itself, and the distance is symmetric in its two points. -/
theorem haversine_zero_and_symm :
    (∀ lat lon : ℝ, haversine_distance lat lon lat lon = 0) ∧
    (∀ lat1 lon1 lat2 lon2 : ℝ,
      haversine_distance lat1 lon1 lat2 lon2 = haversine_distance lat2 lon2 lat1 lon1) := by
  constructor
  · intro lat lon
    simp [haversine_distance, radians, atan2]
  · intro lat1 lon1 lat2 lon2
    have hsin : ∀ x y : ℝ,
        Real.sin (radians (x - y) / 2) ^ 2 = Real.sin (radians (y - x) / 2) ^ 2 := by
      intro x y
      have hneg : radians (x - y) / 2 = -(radians (y - x) / 2) := by
        unfold radians; ring
      rw [hneg, Real.sin_neg]
      ring
    simp only [haversine_distance]
    rw [hsin lat2 lat1, hsin lon2 lon1,
      mul_comm (Real.cos (radians lat1)) (Real.cos (radians lat2))]

end Assistance
